import Mathlib

/-!
Shallow embedding of the iterator-combinator core of the Chemical repository
(src/chemical/__init__.py and src/chemical/iterators.py) together with proofs
settling the frozen claims about it.

Conventions of the embedding:
* Python values that the combinators inspect dynamically are embedded as the
  inductive type `PyVal` (integers, strings, lists, and the value `None`);
  Python truthiness is the function `pyFalsy`.
* Python exceptions are the inductive type `PyErr`; fallible operations return
  `Except PyErr`.  `PyErr.preconditionViolation` embeds the `AssertionError`
  raised by a failed `assert` statement (the spec's "PreconditionViolation"
  kind), `PyErr.stopIteration` embeds `StopIteration` (the spec's "Exhausted"),
  `PyErr.nothingToPeek` embeds the `NothingToPeek` exception class, and
  `PyErr.typeError` embeds `TypeError`.
* The size-bound pair `(self._lower_bound, self._upper_bound)` kept by the
  `it` wrapper is the structure `Bounds`; a `None` upper bound (unbounded) is
  `Option.none`, and Python addition involving `None` raises `TypeError`
  (`pyAddOpt`).
* Stateful adaptors (Peekable, Current, Step) become explicit state machines:
  the not-yet-consumed part of the underlying cursor is a `List PyVal` (or a
  `List α` where the adaptor never inspects element values), and each method
  maps a state to `Except PyErr (result × state)`.
-/

/-- Embedded Python values: the dynamic values flowing through the
combinators.  `PyVal.pyNone` is the Python value `None`. -/
inductive PyVal where
  | int : Int → PyVal
  | str : String → PyVal
  | list : List PyVal → PyVal
  | pyNone : PyVal

/-- Embedded Python exception kinds used by the core (spec section 7). -/
inductive PyErr where
  | stopIteration : PyErr
  | nothingToPeek : PyErr
  | typeError : PyErr
  | preconditionViolation : PyErr
deriving DecidableEq

/-- Python truthiness (`bool(v)` is `False`) for the embedded values:
`0`, the empty string, the empty list and `None` are falsy. -/
def pyFalsy : PyVal → Bool
  | PyVal.int n => n == 0
  | PyVal.str s => s == ""
  | PyVal.list xs => xs.isEmpty
  | PyVal.pyNone => true

/-- The size-hint pair kept by the `it` wrapper: `_lower_bound` is always an
integer, `_upper_bound` may be Python `None` meaning unknown/unbounded
(spec section 3; `flatten` in src/chemical/iterators.py passes a literal
`None` upper bound). -/
structure Bounds where
  lower : Int
  upper : Option Int
deriving DecidableEq

/-- Python `+` on two possibly-`None` integers: adding when either operand is
`None` raises `TypeError`. -/
def pyAddOpt : Option Int → Option Int → Except PyErr Int
  | Option.some x, Option.some y => Except.ok (x + y)
  | _, _ => Except.error PyErr.typeError

/-- Translation of the bounds tuple built by `chain_it`
(src/chemical/iterators.py lines 250-253):
`(self._lower_bound + chained._lower_bound,
  self._upper_bound + chained._upper_bound)`.
The lower components are plain integers so their sum never fails; the upper
components are added with Python `+`, which raises `TypeError` when either is
`None`. -/
def chain_it_bounds (a b : Bounds) : Except PyErr Bounds :=
  match pyAddOpt a.upper b.upper with
  | Except.error e => Except.error e
  | Except.ok u => Except.ok ⟨a.lower + b.lower, Option.some u⟩

/-- Translation of the bounds tuple built by `zip_it`
(src/chemical/iterators.py lines 376-379):
`(self._lower_bound + other_it._lower_bound,
  self._upper_bound + other_it._upper_bound)` — the same sums as `chain_it`,
not minima. -/
def zip_it_bounds (a b : Bounds) : Except PyErr Bounds :=
  match pyAddOpt a.upper b.upper with
  | Except.error e => Except.error e
  | Except.ok u => Except.ok ⟨a.lower + b.lower, Option.some u⟩

/-- Element semantics of `zip(self, other_it)`: positional pairing truncated
at the shorter sequence, which Lean's `List.zip` matches exactly. -/
def zip_it_elems (xs : List α) (ys : List β) : List (α × β) :=
  List.zip xs ys

/-- C1: the claim says zip's resulting bounds are
`(min lower lower2, min upper upper2)`.  The code instead adds the bounds
(copying `chain_it`'s arithmetic): zipping an iterator with bounds `(2, 2)`
over `[0, 1]` against one with bounds `(1000, 1000)` over `range(1000)`
produces the bounds `(1002, 1002)` even though only `min 2 1000 = 2` pairs are
ever yielded, so the computed lower bound is not the claimed minimum (nor even
a true lower bound on the output count). -/
theorem zip_it_bounds_are_sums_not_minima :
    zip_it_bounds ⟨2, Option.some 2⟩ ⟨1000, Option.some 1000⟩ =
      Except.ok ⟨1002, Option.some 1002⟩ ∧
    (zip_it_elems [0, 1] (List.range 1000)).length = 2 ∧
    min (2 : Int) 1000 = 2 ∧ (1002 : Int) ≠ min 2 1000 := by
  refine ⟨by rfl, ?_, by decide, by decide⟩
  simp [zip_it_elems, List.length_zip]

/-- C5: the claim says `chain(A, B)` has lower bound `lowerA + lowerB` and
upper bound `upperA + upperB`, or an unbounded upper bound if either side's
upper bound is unbounded.  The code indeed adds the bounds when both uppers
are present, but when either upper bound is `None` (unbounded — e.g. the
result of `flatten`, which passes a literal `None` upper bound) it evaluates
`None + 5` and raises `TypeError` instead of producing an unbounded result. -/
theorem chain_it_bounds_typeerror_on_unbounded :
    chain_it_bounds ⟨3, Option.none⟩ ⟨5, Option.some 5⟩ =
      Except.error PyErr.typeError ∧
    chain_it_bounds ⟨2, Option.some 4⟩ ⟨3, Option.some 5⟩ =
      Except.ok ⟨5, Option.some 9⟩ :=
  ⟨rfl, rfl⟩

/-- Translation of `Skip.__init__` (src/chemical/iterators.py lines 19-25).
The base-class call `it.__init__(self, items)` is modelled from the spec
(section 3) as installing the underlying cursor and a starting `Bounds` pair,
since the full `it` base class is not under src/.  The constructor then runs
`assert times > 0` (the spec's PreconditionViolation, embedded as
`PyErr.preconditionViolation`) before updating the bounds:
`_lower_bound = max(0, _lower_bound - times)` and, guarded by Python
truthiness of `_upper_bound`, `_upper_bound -= times`. -/
def skip_init (items : List PyVal) (b : Bounds) (times : Int) :
    Except PyErr (List PyVal × Bounds × Int) :=
  if times > 0 then
    Except.ok (items,
      ⟨max 0 (b.lower - times),
        match b.upper with
        | Option.some u => if u == 0 then Option.some u else Option.some (u - times)
        | Option.none => Option.none⟩,
      times)
  else Except.error PyErr.preconditionViolation

/-- C4: constructing `skip(S, times)` with any `times <= 0` fails fast with
the PreconditionViolation error (the failed `assert times > 0`), for every
source sequence and every starting bounds pair. -/
theorem skip_init_precondition (items : List PyVal) (b : Bounds) (times : Int)
    (h : times ≤ 0) : skip_init items b times = Except.error PyErr.preconditionViolation := by
  unfold skip_init
  rw [if_neg]
  omega

/-- Witness for C4 at the concrete inputs of the claim: both `skip(S, 0)` and
`skip(S, -1)` fail with PreconditionViolation on the source `[1]`. -/
theorem skip_init_precondition_witness :
    (0 : Int) ≤ 0 ∧ (-1 : Int) ≤ 0 ∧
    skip_init [PyVal.int 1] ⟨1, Option.some 1⟩ 0 =
      Except.error PyErr.preconditionViolation ∧
    skip_init [PyVal.int 1] ⟨1, Option.some 1⟩ (-1) =
      Except.error PyErr.preconditionViolation :=
  ⟨by decide, by decide,
    skip_init_precondition [PyVal.int 1] ⟨1, Option.some 1⟩ 0 (by decide),
    skip_init_precondition [PyVal.int 1] ⟨1, Option.some 1⟩ (-1) (by decide)⟩

/-- Translation of `Step.__next__` from src/chemical/__init__.py lines 88-95,
drained to exhaustion: each pull takes `nxt = next(self.items)` (ending the
run when that raises `StopIteration`), then discards `step - 1` further
elements inside a `try`/`except StopIteration: pass`, so running out of
elements while discarding is absorbed (`List.drop` likewise stops at the end
of the list). -/
def stepRunInit (step : Nat) (xs : List α) : List α :=
  match xs with
  | [] => []
  | x :: rest => x :: stepRunInit step (List.drop (step - 1) rest)
termination_by xs.length
decreasing_by
  simp only [List.length_cons, List.length_drop]
  omega

/-- Translation of `Step.__get_next__` from src/chemical/iterators.py lines
77-84, drained to exhaustion.  The pull body is character-for-character the
same as the `Step.__next__` of src/chemical/__init__.py: yield one element,
then discard `step - 1` elements, absorbing `StopIteration` raised while
discarding. -/
def stepRunIter (step : Nat) (xs : List α) : List α :=
  match xs with
  | [] => []
  | x :: rest => x :: stepRunIter step (List.drop (step - 1) rest)
termination_by xs.length
decreasing_by
  simp only [List.length_cons, List.length_drop]
  omega

/-- C6: `step_by(S, s)` yields exactly the slice `S[0::s]`: the element at
output position `i` is the source element at position `i * s`, and the output
ends exactly when `i * s` runs past the end of the source (so exhaustion met
while discarding is absorbed, not propagated).  Since `List.getElem?`
agreement at every index determines the list, this is the full slice law. -/
theorem stepRunIter_slice (xs : List α) (s : Nat) (h : 1 ≤ s) (i : Nat) :
    (stepRunIter s xs)[i]? = xs[i * s]? := by
  induction xs using stepRunIter.induct s generalizing i with
  | case1 => simp [stepRunIter]
  | case2 x rest ih =>
    rw [stepRunIter]
    cases i with
    | zero => simp
    | succ j =>
      have hidx : (j + 1) * s = s - 1 + j * s + 1 := by
        rw [Nat.succ_mul]
        omega
      rw [List.getElem?_cons_succ, ih j, List.getElem?_drop, hidx,
        List.getElem?_cons_succ]

/-- Witness for C6 at a concrete input: stepping `[10, 11, 12, 13, 14]` by 2
puts the source element at position `i * 2` at output position `i`; shown
here at output positions 0, 1, 2 and 3 (position 3 is past the end on both
sides). -/
theorem stepRunIter_slice_witness :
    1 ≤ 2 ∧
    (stepRunIter 2 [10, 11, 12, 13, 14])[0]? = [10, 11, 12, 13, 14][0 * 2]? ∧
    (stepRunIter 2 [10, 11, 12, 13, 14])[1]? = [10, 11, 12, 13, 14][1 * 2]? ∧
    (stepRunIter 2 [10, 11, 12, 13, 14])[2]? = [10, 11, 12, 13, 14][2 * 2]? ∧
    (stepRunIter 2 [10, 11, 12, 13, 14])[3]? = [10, 11, 12, 13, 14][3 * 2]? :=
  ⟨by decide,
    stepRunIter_slice [10, 11, 12, 13, 14] 2 (by decide) 0,
    stepRunIter_slice [10, 11, 12, 13, 14] 2 (by decide) 1,
    stepRunIter_slice [10, 11, 12, 13, 14] 2 (by decide) 2,
    stepRunIter_slice [10, 11, 12, 13, 14] 2 (by decide) 3⟩

/-- C10: the `Step` adaptor of src/chemical/__init__.py (`__next__`) and the
`Step` adaptor of src/chemical/iterators.py (`__get_next__`) produce the same
forward sequence of elements when pulled to exhaustion, for every input
sequence and every step `s >= 1` (their pull bodies are the same: yield one
element, then discard `step - 1` inside `try`/`except StopIteration: pass`). -/
theorem step_adaptors_agree (xs : List α) (s : Nat) (h : 1 ≤ s) :
    stepRunInit s xs = stepRunIter s xs := by
  induction xs using stepRunInit.induct s with
  | case1 => rw [stepRunInit, stepRunIter]
  | case2 x rest ih =>
    rw [stepRunInit, stepRunIter, ih]

/-- Witness for C10 at a concrete input: both Step adaptors turn
`[0, 1, 2, 3, 4]` with step 2 into the same list. -/
theorem step_adaptors_agree_witness :
    1 ≤ 2 ∧ stepRunInit 2 [0, 1, 2, 3, 4] = stepRunIter 2 [0, 1, 2, 3, 4] :=
  ⟨by decide, step_adaptors_agree [0, 1, 2, 3, 4] 2 (by decide)⟩

/-- Python truthiness of the `self.ahead` attribute: `not self.ahead` is true
when `ahead` is still the initial `None` or when it holds a falsy buffered
value such as `0` or the empty string. -/
def aheadFalsy : Option PyVal → Bool
  | Option.none => true
  | Option.some v => pyFalsy v

/-- State of the `Peekable` adaptor of src/chemical/iterators.py lines
185-228: the not-yet-pulled suffix of the underlying cursor, the single-slot
lookahead buffer `self.ahead` (initially `None`), and the `self.done` flag.
The `can_peek` flag is omitted: it is read only by `has_next`, which no claim
mentions. -/
structure Peekable where
  items : List PyVal
  ahead : Option PyVal
  done : Bool

/-- Constructor `Peekable.__init__`: `ahead = None`, `done = False`. -/
def Peekable.init (xs : List PyVal) : Peekable :=
  ⟨xs, Option.none, false⟩

/-- The refill step shared by `peek`: `self.ahead = next(self.items)`,
returning the new buffer content, with `StopIteration` from the underlying
cursor re-raised as `NothingToPeek` (and the assignment not happening). -/
def Peekable.refill (s : Peekable) : Except PyErr (PyVal × Peekable) :=
  match s.items with
  | [] => Except.error PyErr.nothingToPeek
  | x :: rest => Except.ok (x, ⟨rest, Option.some x, s.done⟩)

/-- Translation of `Peekable.peek` (src/chemical/iterators.py lines 198-209):
if `self.done`, raise `NothingToPeek`; then `if not self.ahead` (Python
truthiness — also true for a buffered falsy value) pull the next element into
the buffer, turning `StopIteration` into `NothingToPeek`; finally return
`self.ahead`. -/
def Peekable.peek (s : Peekable) : Except PyErr (PyVal × Peekable) :=
  if s.done then Except.error PyErr.nothingToPeek
  else
    match s.ahead with
    | Option.some v => if pyFalsy v then Peekable.refill s else Except.ok (v, s)
    | Option.none => Peekable.refill s

/-- Translation of `Peekable.__get_next__` (src/chemical/iterators.py lines
211-228): if `self.done`, raise `StopIteration`; refill the buffer under
`if not self.ahead`, swallowing `StopIteration`; set `ret = self.ahead`
(which is still Python `None`, here `Option.none`, when the swallowed refill
failed); eagerly pull the following element into the buffer, setting
`self.done` when that pull fails; return `ret` either way. -/
def Peekable.next (s : Peekable) : Except PyErr (Option PyVal × Peekable) :=
  if s.done then Except.error PyErr.stopIteration
  else
    let s1 : Peekable :=
      if aheadFalsy s.ahead then
        match s.items with
        | [] => s
        | x :: rest => ⟨rest, Option.some x, s.done⟩
      else s
    match s1.items with
    | [] => Except.ok (s1.ahead, ⟨s1.items, s1.ahead, true⟩)
    | y :: rest2 => Except.ok (s1.ahead, ⟨rest2, Option.some y, s1.done⟩)

/-- C3: the claim says `peek()` is idempotent — any number of calls without an
intervening `next()` return the same value.  On the source `[0, 1, 2]` the
code's `if not self.ahead` test treats the buffered value `0` as an empty
buffer (Python truthiness), so the first `peek()` returns `0` but a second
`peek()` consumes another element and returns `1`, discarding the buffered
`0` entirely. -/
theorem peek_not_idempotent_on_falsy :
    Peekable.peek (Peekable.init [PyVal.int 0, PyVal.int 1, PyVal.int 2]) =
      Except.ok (PyVal.int 0,
        ⟨[PyVal.int 1, PyVal.int 2], Option.some (PyVal.int 0), false⟩) ∧
    Peekable.peek ⟨[PyVal.int 1, PyVal.int 2], Option.some (PyVal.int 0), false⟩ =
      Except.ok (PyVal.int 1,
        ⟨[PyVal.int 2], Option.some (PyVal.int 1), false⟩) ∧
    PyVal.int 0 ≠ PyVal.int 1 := by
  refine ⟨by rfl, by rfl, ?_⟩
  intro hcontra
  exact absurd (PyVal.int.injEq 0 1 ▸ hcontra) (by decide)

/-- C8: on a `Peekable` whose underlying source is exhausted (no elements
left and nothing buffered), `peek()` raises `NothingToPeek`, an error kind
distinct from the `StopIteration` (`Exhausted`) termination signal that a
plain pull raises. -/
theorem peek_exhausted_raises_nothing_to_peek (s : Peekable)
    (h1 : s.items = []) (h2 : s.ahead = Option.none) :
    Peekable.peek s = Except.error PyErr.nothingToPeek ∧
    PyErr.nothingToPeek ≠ PyErr.stopIteration := by
  constructor
  · obtain ⟨items, ahead, done⟩ := s
    simp only at h1 h2
    subst h1
    subst h2
    cases done <;> simp [Peekable.peek, Peekable.refill]
  · decide

/-- Witness for C8: a fresh `Peekable` over the empty source. -/
theorem peek_exhausted_raises_nothing_to_peek_witness :
    Peekable.peek (Peekable.init []) = Except.error PyErr.nothingToPeek ∧
    PyErr.nothingToPeek ≠ PyErr.stopIteration :=
  peek_exhausted_raises_nothing_to_peek (Peekable.init []) rfl rfl

/-- State of the `Current` adaptor (src/chemical/iterators.py lines 601-637):
the inherited `Peekable` state plus `self.current_item` and the `_modified`
flag.  Modelled from the spec: `_modified` is an attribute of the `it` base
class, which is not under src/; per spec section 4.4 (`curr()` equals
`peek()` before the first `next()` call and is frozen afterward) it records
whether `next()` has yielded at least once, and the base-class `__next__`
dispatcher (also missing from src/) sets it when a pull returns. -/
structure Current where
  items : List PyVal
  ahead : Option PyVal
  done : Bool
  current_item : Option PyVal
  modified : Bool

/-- The `Peekable` part of a `Current` state (`Current` subclasses
`Peekable`). -/
def Current.toPeek (c : Current) : Peekable :=
  ⟨c.items, c.ahead, c.done⟩

/-- Constructor `Current.__init__`: `Peekable.__init__` plus
`current_item = None`; nothing has been yielded yet. -/
def Current.init (xs : List PyVal) : Current :=
  ⟨xs, Option.none, false, Option.none, false⟩

/-- Translation of `Current.__next__`:
`self.current_item = Peekable.__next__(self); return self.current_item`,
with the base dispatcher recording that the iterator has yielded. -/
def Current.next (c : Current) : Except PyErr (Option PyVal × Current) :=
  match Peekable.next c.toPeek with
  | Except.error e => Except.error e
  | Except.ok (ret, p) => Except.ok (ret, ⟨p.items, p.ahead, p.done, ret, true⟩)

/-- Translation of `Current.curr` (src/chemical/iterators.py lines 633-636):
`if not self._modified: return self.peek()` — including `peek`'s effect on
the lookahead buffer — `return self.current_item` otherwise. -/
def Current.curr (c : Current) : Except PyErr (Option PyVal × Current) :=
  if c.modified then Except.ok (c.current_item, c)
  else
    match Peekable.peek c.toPeek with
    | Except.error e => Except.error e
    | Except.ok (v, p) =>
      Except.ok (Option.some v, ⟨p.items, p.ahead, p.done, c.current_item, c.modified⟩)

/-- The value produced by `curr()` (discarding the state change). -/
def Current.currVal (c : Current) : Except PyErr (Option PyVal) :=
  match Current.curr c with
  | Except.error e => Except.error e
  | Except.ok (v, _) => Except.ok v

/-- The value produced by `peek()` on the `Peekable` part (discarding the
state change), injected into `Option` for comparison with `curr()`'s
result. -/
def Current.peekVal (c : Current) : Except PyErr (Option PyVal) :=
  match Peekable.peek c.toPeek with
  | Except.error e => Except.error e
  | Except.ok (v, _) => Except.ok (Option.some v)

/-- The state change performed by one `peek()` call on a `Current` (a failed
peek changes nothing). -/
def Current.peekStep (c : Current) : Current :=
  match Peekable.peek c.toPeek with
  | Except.error _ => c
  | Except.ok (_, p) => ⟨p.items, p.ahead, p.done, c.current_item, c.modified⟩

theorem Current.peekStep_preserves (c : Current) :
    (Current.peekStep c).current_item = c.current_item ∧
    (Current.peekStep c).modified = c.modified := by
  unfold Current.peekStep
  cases Peekable.peek c.toPeek with
  | error e => exact ⟨rfl, rfl⟩
  | ok p => exact ⟨rfl, rfl⟩

theorem Current.currVal_of_modified (c : Current) (h : c.modified = true) :
    Current.currVal c = Except.ok c.current_item := by
  unfold Current.currVal Current.curr
  rw [h]
  rfl

/-- C7: the `curr()` contract.  Before the first `next()` call
(`_modified` still false) `curr()` produces the same value as `peek()`;
when a `next()` call returns the value `v`, `curr()` on the resulting state
produces exactly `v`, and keeps producing `v` across any number of further
`peek()` calls (the only state-changing operation other than `next()`), i.e.
the value is frozen until the following `next()` call. -/
theorem current_curr_contract :
    (∀ c : Current, c.modified = false → Current.currVal c = Current.peekVal c) ∧
    (∀ (c : Current) (v : Option PyVal) (c' : Current),
      Current.next c = Except.ok (v, c') →
      ∀ n : Nat, Current.currVal (Current.peekStep^[n] c') = Except.ok v) := by
  constructor
  · intro c h
    unfold Current.currVal Current.curr Current.peekVal
    rw [h]
    simp only [Bool.false_eq_true, if_false]
    cases Peekable.peek c.toPeek with
    | error e => rfl
    | ok p => rfl
  · intro c v c' hnext n
    have hstate : c'.modified = true ∧ c'.current_item = v := by
      unfold Current.next at hnext
      cases hp : Peekable.next c.toPeek with
      | error e => rw [hp] at hnext; exact absurd hnext (by simp)
      | ok p =>
        rw [hp] at hnext
        obtain ⟨ret, q⟩ := p
        simp only [Except.ok.injEq, Prod.mk.injEq] at hnext
        obtain ⟨hv, hc⟩ := hnext
        rw [← hc]
        exact ⟨rfl, hv⟩
    induction n with
    | zero =>
      rw [Function.iterate_zero_apply, Current.currVal_of_modified c' hstate.1,
        hstate.2]
    | succ m ihm =>
      rw [Function.iterate_succ_apply']
      have hpres := Current.peekStep_preserves (Current.peekStep^[m] c')
      have hmod : (Current.peekStep^[m] c').modified = true := by
        clear ihm hpres
        induction m with
        | zero => rw [Function.iterate_zero_apply]; exact hstate.1
        | succ k ihk =>
          rw [Function.iterate_succ_apply']
          rw [(Current.peekStep_preserves (Current.peekStep^[k] c')).2]
          exact ihk
      have hcur : (Current.peekStep^[m] c').current_item = v := by
        clear ihm hpres hmod
        induction m with
        | zero => rw [Function.iterate_zero_apply]; exact hstate.2
        | succ k ihk =>
          rw [Function.iterate_succ_apply']
          rw [(Current.peekStep_preserves (Current.peekStep^[k] c')).1]
          exact ihk
      rw [Current.currVal_of_modified _ (hpres.2.trans hmod),
        hpres.1.trans hcur]

/-- Witness for C7: on the fresh `Current` over `[1, 2]`, `curr()` agrees
with `peek()`; and after `next()` returns `1` (reaching the state with
`current_item = 1`, `_modified` set), `curr()` still returns `1` after two
further `peek()` calls. -/
theorem current_curr_contract_witness :
    Current.currVal (Current.init [PyVal.int 1, PyVal.int 2]) =
      Current.peekVal (Current.init [PyVal.int 1, PyVal.int 2]) ∧
    Current.currVal (Current.peekStep^[2]
        ⟨[], Option.some (PyVal.int 2), false, Option.some (PyVal.int 1), true⟩) =
      Except.ok (Option.some (PyVal.int 1)) :=
  ⟨current_curr_contract.1 (Current.init [PyVal.int 1, PyVal.int 2]) rfl,
    current_curr_contract.2 (Current.init [PyVal.int 1, PyVal.int 2])
      (Option.some (PyVal.int 1))
      ⟨[], Option.some (PyVal.int 2), false, Option.some (PyVal.int 1), true⟩
      (by rfl) 2⟩

/-- Python `isinstance(x, Iterable)` for the embedded values together with
`iter(x)`'s elements: a string iterates over its characters (each a length-1
string), a list over its elements; integers and `None` are not iterable.
`bytes` values behave like strings for every combinator modelled here and
are folded into `PyVal.str`. -/
def pyIterElems : PyVal → Option (List PyVal)
  | PyVal.str s => Option.some (s.data.map (fun c => PyVal.str (String.mk [c])))
  | PyVal.list xs => Option.some xs
  | _ => Option.none

/-- Python `isinstance(x, (str, bytes))`: the text-like values. -/
def isTextLike : PyVal → Bool
  | PyVal.str _ => true
  | _ => false

/-- Translation of the inner generator `deepflatten_generic` of `flatten`
(src/chemical/iterators.py lines 420-425): for each element `x`, descend when
`isinstance(x, Iterable) and (preserve_strings or not isinstance(x, (str,
bytes))) and (depth < max_depth)` — note the condition really reads
`preserve_strings or ...`, so with `preserve_strings` set text-like elements
DO get descended into — otherwise yield `x`.  Here `fuel` is the remaining
depth budget `max_depth - depth` (a finite `max_depth`; depth counting starts
at 0 for the top-level elements, so the top-level call receives
`fuel = max_depth`), and `fuel = 0` embeds `depth < max_depth` being false. -/
def deepflatten_generic (preserveStrings : Bool) :
    (fuel : Nat) → (xs : List PyVal) → List PyVal
  | _, [] => []
  | fuel, x :: rest =>
    match fuel, pyIterElems x, preserveStrings || !(isTextLike x) with
    | f + 1, Option.some inner, true =>
      deepflatten_generic preserveStrings f inner ++
        deepflatten_generic preserveStrings (f + 1) rest
    | f, _, _ => x :: deepflatten_generic preserveStrings f rest
termination_by fuel xs => (fuel, xs.length)
decreasing_by
  · exact Prod.Lex.left _ _ (Nat.lt_succ_self f)
  · exact Prod.Lex.right _ (Nat.lt_succ_self rest.length)
  · exact Prod.Lex.right _ (Nat.lt_succ_self rest.length)

/-- C2: the claim (and the parameter's own docstring) says that with
`preserve_strings` set, text-like elements are kept atomic.  The code's
condition is inverted: with `preserve_strings = True` (the default) it
descends into the string `"ab"` and yields its characters, while with
`preserve_strings = False` it keeps `"ab"` intact — the exact opposite of the
claim.  Shown at the default `max_depth = 1` on the input `["ab"]`. -/
theorem flatten_preserve_strings_inverted :
    deepflatten_generic true 1 [PyVal.str "ab"] =
      [PyVal.str "a", PyVal.str "b"] ∧
    deepflatten_generic false 1 [PyVal.str "ab"] = [PyVal.str "ab"] ∧
    PyVal.str "a" ≠ PyVal.str "ab" := by
  refine ⟨by simp [deepflatten_generic, pyIterElems, isTextLike],
    by simp [deepflatten_generic, pyIterElems, isTextLike], ?_⟩
  intro hcontra
  exact absurd (PyVal.str.injEq "a" "ab" ▸ hcontra) (by decide)

/-- The values yielded by the worker-pool loop of `_process_items`
(src/chemical/iterators.py lines 575-590), modelled from the spec (section 5)
under the serialized in-order schedule the spec prescribes for the pool's
concurrent pulls: each round submits `numCores` pulls, the pulled values are
recorded into their slots, and the round's values are yielded in slot order,
so the yields are the source elements in order.  (This loop is in fact never
reached — see `par_iter_collect` — so none of the claims depend on the
schedule chosen here.) -/
def processItemsRounds (numCores : Nat) : List PyVal → List PyVal
  | [] => []
  | x :: rest =>
    List.take numCores (x :: rest) ++
      processItemsRounds numCores (List.drop (numCores - 1) rest)
termination_by xs => xs.length
decreasing_by
  simp only [List.length_cons, List.length_drop]
  omega

/-- The full yield sequence of the generator `_process_items(the_items)`:
its body starts with a bare `yield`, which yields the Python value `None`,
before the worker-pool loop runs. -/
def processItemsYields (numCores : Nat) (items : List PyVal) : List PyVal :=
  PyVal.pyNone :: processItemsRounds numCores items

/-- Python `iter(x)` as performed by `it.__init__`
(src/chemical/__init__.py line 19, `self.items = iter(items)`): the elements
for an iterable value, `TypeError` for a non-iterable one such as `None`. -/
def pyIterInit (v : PyVal) : Except PyErr (List PyVal) :=
  match pyIterElems v with
  | Option.some xs => Except.ok xs
  | Option.none => Except.error PyErr.typeError

/-- Translation of the tail of `par_iter` (src/chemical/iterators.py lines
595-598) followed by `collect`: `forward = next(_process_items(self.items))`
evaluates the fresh generator to its first `yield` and binds the YIELDED
VALUE — the bare `yield`'s `None` — not the generator object; `it(forward)`
then wraps that value, and collecting pulls from `iter(None)`.
(`next` on the generator raises `StopIteration` only if the generator yields
nothing, which `_process_items` never does.) -/
def par_iter_collect (numCores : Nat) (items : List PyVal) :
    Except PyErr (List PyVal) :=
  match List.head? (processItemsYields numCores items) with
  | Option.none => Except.error PyErr.stopIteration
  | Option.some forward => pyIterInit forward

/-- C9: the claim says `par_iter(range(N)).collect()` equals the source
sequence in order.  In the code, `forward = next(_process_items(self.items))`
binds the generator's first yielded value — `None` from the initial bare
`yield` — instead of the advanced generator, so `it(forward)` wraps `None`
and collecting raises `TypeError` (`iter(None)`); no elements are ever
produced, contradicting the claim (and the docstring example
`it(range(3)).par_iter().next() == 0`).  Shown with 4 worker slots on the
source `[0, 1, 2]`. -/
theorem par_iter_collect_broken :
    par_iter_collect 4 [PyVal.int 0, PyVal.int 1, PyVal.int 2] =
      Except.error PyErr.typeError ∧
    Except.error PyErr.typeError ≠
      (Except.ok [PyVal.int 0, PyVal.int 1, PyVal.int 2] :
        Except PyErr (List PyVal)) := by
  constructor
  · rw [par_iter_collect]
    rfl
  · intro hcontra
    exact absurd hcontra (by simp)
